import Mathlib

/-!
Shallow embedding of the reaction-points bot (src/main.py).

Strings are modelled as lists of characters. The three CSV stores are
modelled as in-memory lists of parsed rows: the settings store as a list
of key/value string pairs, the points ledger as a list of
(user_id, points) integer pairs, and the campaign registry as a list of
Campaign records. Timestamps are modelled as integers (the code only
compares them and writes them back verbatim).
-/

namespace ReactionBot

/-- Characters that Python str.strip and int treat as whitespace
(space, tab, newline, carriage return, vertical tab, form feed). -/
def isPySpace (c : Char) : Bool :=
  c == ' ' || c == '\t' || c == '\n' || c == '\r' || c == '\x0b' || c == '\x0c'

/-- Python str.strip with no argument: drop leading and trailing whitespace. -/
def pyStrip (s : List Char) : List Char :=
  ((s.dropWhile isPySpace).reverse.dropWhile isPySpace).reverse

/-- Helper loop for pySplit, accumulating the current field in reverse. -/
def pySplitAux (sep : Char) : List Char → List Char → List (List Char)
  | [], acc => [acc.reverse]
  | c :: cs, acc =>
    if c == sep then acc.reverse :: pySplitAux sep cs []
    else pySplitAux sep cs (c :: acc)

/-- Python s.split(sep) for a one-character separator: the empty string
splits to a single empty field, adjacent separators give empty fields. -/
def pySplit (s : List Char) (sep : Char) : List (List Char) :=
  pySplitAux sep s []

/-- Accumulate the value of a decimal digit string; fails on a non-digit. -/
def pyDigitsAux : List Char → Nat → Option Nat
  | [], acc => some acc
  | c :: cs, acc =>
    if c.isDigit then pyDigitsAux cs (acc * 10 + (c.toNat - 48)) else none

/-- Value of a nonempty all-digit string; none otherwise. -/
def pyDigits : List Char → Option Nat
  | [] => none
  | c :: cs => pyDigitsAux (c :: cs) 0

/-- Python int applied to a string: optional surrounding whitespace, an
optional sign, then one or more decimal digits; anything else raises
(modelled as none). -/
def pyInt (s : List Char) : Option Int :=
  match pyStrip s with
  | '+' :: rest => (pyDigits rest).map (fun n => (n : Int))
  | '-' :: rest => (pyDigits rest).map (fun n => -(n : Int))
  | t => (pyDigits t).map (fun n => (n : Int))

/-- Python dict assignment d[k] = v on an association list: replace the
value at the first occurrence of the key, else append a new entry. -/
def dictInsert {α β : Type} [DecidableEq α] : List (α × β) → α → β → List (α × β)
  | [], k, v => [(k, v)]
  | kv :: d, k, v => if kv.1 = k then (k, v) :: d else kv :: dictInsert d k v

/-- Python dict lookup d[k]: the value at the first occurrence of the key. -/
def dictLookup {α β : Type} [DecidableEq α] : List (α × β) → α → Option β
  | [], _ => none
  | kv :: d, k => if kv.1 = k then some kv.2 else dictLookup d k

/-- The points ledger (points.csv body): one (user_id, points) row per line. -/
abbrev Ledger := List (Int × Int)

/-- get_user_points: scan for the first row with the given user_id and
return its points; a user with no row has 0 points. -/
def get_user_points : Ledger → Int → Int
  | [], _ => 0
  | (u, p) :: rows, uid => if u = uid then p else get_user_points rows uid

/-- update_user_points: replace the points of the first row with the given
user_id; if no row matches, append a new row. -/
def update_user_points : Ledger → Int → Int → Ledger
  | [], uid, pts => [(uid, pts)]
  | (u, p) :: rows, uid, pts =>
    if u = uid then (u, pts) :: rows
    else (u, p) :: update_user_points rows uid pts

/-- get_user_points together with the FileNotFoundError branch: when the
points file is absent the handler recreates it with headers only (an
empty row list) and the call returns 0. -/
def get_user_points_file : Option Ledger → Int → Option Ledger × Int
  | none, _ => (some [], 0)
  | some rows, uid => (some rows, get_user_points rows uid)

/-- The settings store (settings.csv body): key/value string rows. -/
abbrev Settings := List (String × String)

/-- get_setting: the value of the first row with the given key, if any. -/
def get_setting : Settings → String → Option String
  | [], _ => none
  | (k, v) :: rows, key => if k = key then some v else get_setting rows key

/-- The role gate used by createwpt and pointset. A falsy stored value
(absent key, or the empty string) admits everyone; otherwise the value is
converted with int — on failure the check denies everyone — and the
invoker passes iff one of their role ids equals the converted id. -/
def has_required_role (settings : Settings) (roleIds : List Int) : Bool :=
  match get_setting settings "required_role" with
  | none => true
  | some v =>
    if v = "" then true
    else
      match pyInt v.data with
      | none => false
      | some rid => roleIds.contains rid

/-- A row of wpt_messages.csv: message id, channel id, expiration
timestamp, and the raw emoji:points string as stored. -/
structure Campaign where
  message_id : Int
  channel_id : Int
  expiration : Int
  emoji_points : List Char
deriving DecidableEq

/-- The linear scan both reaction handlers use to find the campaign row
for a message id. -/
def find_by_message : List Campaign → Int → Option Campaign
  | [], _ => none
  | c :: rows, mid => if c.message_id = mid then some c else find_by_message rows mid

/-- The parse loop at the top of createwpt: split the input on commas; each
pair must split on a colon into exactly an emoji part and a points part,
the points part must convert with int, and the stripped emoji is assigned
the integer value in the dict. Any failure raises (modelled as none). -/
def createwptParseAux : List (List Char) → List (List Char × Int) →
    Option (List (List Char × Int))
  | [], acc => some acc
  | pair :: rest, acc =>
    match pySplit pair ':' with
    | [e, p] =>
      match pyInt p with
      | some n => createwptParseAux rest (dictInsert acc (pyStrip e) n)
      | none => none
    | _ => none

/-- The emoji_dict that createwpt builds from the emoji_points argument. -/
def createwpt_parse (s : List Char) : Option (List (List Char × Int)) :=
  createwptParseAux (pySplit s ',') []

/-- Outcome of the createwpt command: either the message was posted with
one reaction per emoji of the parsed schedule and the record persisted, or
the command reported an error to the invoker with nothing posted and
nothing persisted. -/
inductive CreateResult where
  | created (schedule : List (List Char × Int)) (reactions : List (List Char))
  | error
deriving DecidableEq

/-- createwpt: parsing happens first; on any parse failure the exception
handler reports the error and neither posts a message nor writes a record.
On success the record appended to the registry stores the raw emoji_points
string, and one reaction per dict key is attached to the posted message. -/
def createwpt (registry : List Campaign) (mid cid expiry : Int) (s : List Char) :
    List Campaign × CreateResult :=
  match createwpt_parse s with
  | none => (registry, CreateResult.error)
  | some d => (registry ++ [⟨mid, cid, expiry, s⟩], CreateResult.created d (d.map (·.1)))

/-- The expression dict(pair.split for pair in s.split) in the reaction
handlers: every comma-separated pair must split on a colon into exactly two
parts, or dict raises (modelled as none); keys are kept unstripped and
values stay raw strings. -/
def handlerDecodeAux : List (List Char) → List (List Char × List Char) →
    Option (List (List Char × List Char))
  | [], acc => some acc
  | pair :: rest, acc =>
    match pySplit pair ':' with
    | [e, p] => handlerDecodeAux rest (dictInsert acc e p)
    | _ => none

/-- The emoji_points dict a reaction handler decodes from a stored record. -/
def handler_decode (s : List Char) : Option (List (List Char × List Char)) :=
  handlerDecodeAux (pySplit s ',') []

/-- on_reaction_add: ignore bots; find the campaign row for the message;
decode its emoji_points dict (a failure is caught and leaves the ledger
unchanged); if the emoji is a key, convert its value with int (a failure
is caught likewise) and add it to the current balance of the user. -/
def on_reaction_add (registry : List Campaign) (ledger : Ledger) (isBot : Bool)
    (uid mid : Int) (emoji : List Char) : Ledger :=
  if isBot then ledger
  else
    match find_by_message registry mid with
    | none => ledger
    | some row =>
      match handler_decode row.emoji_points with
      | none => ledger
      | some d =>
        match dictLookup d emoji with
        | none => ledger
        | some p =>
          match pyInt p with
          | none => ledger
          | some n => update_user_points ledger uid (get_user_points ledger uid + n)

/-- on_reaction_remove: same lookup and decode as on_reaction_add, but the
point value is subtracted from the current balance of the user. -/
def on_reaction_remove (registry : List Campaign) (ledger : Ledger) (isBot : Bool)
    (uid mid : Int) (emoji : List Char) : Ledger :=
  if isBot then ledger
  else
    match find_by_message registry mid with
    | none => ledger
    | some row =>
      match handler_decode row.emoji_points with
      | none => ledger
      | some d =>
        match dictLookup d emoji with
        | none => ledger
        | some p =>
          match pyInt p with
          | none => ledger
          | some n => update_user_points ledger uid (get_user_points ledger uid - n)

/-- The scan loop of check_expirations: rows whose expiration is at or
before now go (projected to message id and channel id, in order) to the
expired list, the others (in order) to the active list. -/
def partitionExpired (now : Int) : List Campaign → List (Int × Int) × List Campaign
  | [] => ([], [])
  | c :: rows =>
    let r := partitionExpired now rows
    if c.expiration ≤ now then ((c.message_id, c.channel_id) :: r.1, r.2)
    else (r.1, c :: r.2)

/-- Result of one pass of check_expirations: the expired list built by the
scan, the outcome of each best-effort message deletion (every failure is
caught and ignored), and the active rows the registry file is rewritten
with. -/
structure SweepResult where
  expired_messages : List (Int × Int)
  delete_results : List Bool
  registry : List Campaign
deriving DecidableEq

/-- check_expirations at time now: partition the rows, attempt to delete
the chat message of every expired entry (deleteOk gives the outcome of each
attempt; the bare except swallows any failure so the loop continues and the
outcome influences nothing else), then rewrite the registry file to exactly
the active rows. -/
def check_expirations (now : Int) (rows : List Campaign)
    (deleteOk : Int → Int → Bool) : SweepResult :=
  let pr := partitionExpired now rows
  { expired_messages := pr.1
    delete_results := pr.1.map (fun p => deleteOk p.1 p.2)
    registry := pr.2 }

/-- Iterated update_user_points: apply a sequence of set-points calls to a
ledger, oldest first. -/
def applyCalls (L : Ledger) : List (Int × Int) → Ledger
  | [] => L
  | c :: cs => applyCalls (update_user_points L c.1 c.2) cs

/-- The value of the most recent call for user u in a call sequence
(oldest first), if any. -/
def lastCallValue (u : Int) : List (Int × Int) → Option Int
  | [] => none
  | c :: cs =>
    match lastCallValue u cs with
    | some n => some n
    | none => if c.1 = u then some c.2 else none

/-- A comma-separated pair is malformed in the sense of the validation
claims when it lacks a colon entirely or its points part does not convert
with int. -/
def malformedPair (pair : List Char) : Bool :=
  match pySplit pair ':' with
  | [_, p] => (pyInt p).isNone
  | [_] => true
  | _ => false

/-- A pair whose emoji part is already stripped (carries no surrounding
whitespace); pairs that do not split into exactly two parts count as
trivially fine here. -/
def stripOK (pair : List Char) : Bool :=
  match pySplit pair ':' with
  | [e, _] => pyStrip e == e
  | _ => true

/-- Correspondence between an entry of the dict createwpt computes and an
entry of the dict a reaction handler decodes: same key, and the stored
value string converts with int to the creation-time point value. -/
def schedRel (a : List Char × Int) (b : List Char × List Char) : Prop :=
  a.1 = b.1 ∧ pyInt b.2 = some a.2

/-! Helper lemmas about the ledger operations. -/

theorem get_cons (w p : Int) (L : Ledger) (u : Int) :
    get_user_points ((w, p) :: L) u
      = if w = u then p else get_user_points L u := rfl

theorem update_cons (w p : Int) (L : Ledger) (u n : Int) :
    update_user_points ((w, p) :: L) u n
      = if w = u then (w, n) :: L else (w, p) :: update_user_points L u n := rfl

theorem get_update_self : ∀ (L : Ledger) (u n : Int),
    get_user_points (update_user_points L u n) u = n
  | [], u, n => by simp [update_user_points, get_cons]
  | (v, p) :: L, u, n => by
    by_cases h : v = u
    · rw [update_cons, if_pos h, get_cons, if_pos h]
    · rw [update_cons, if_neg h, get_cons, if_neg h]
      exact get_update_self L u n

theorem get_update_other : ∀ (L : Ledger) (u n v : Int), v ≠ u →
    get_user_points (update_user_points L u n) v = get_user_points L v
  | [], u, n, v, h => by
    have huv : ¬u = v := fun hh => h hh.symm
    simp [update_user_points, get_cons, huv, get_user_points]
  | (w, p) :: L, u, n, v, h => by
    by_cases hw : w = u
    · have hwv : ¬w = v := fun hh => h (hh.symm.trans hw)
      rw [update_cons, if_pos hw, get_cons, if_neg hwv, get_cons, if_neg hwv]
    · by_cases hv : w = v
      · rw [update_cons, if_neg hw, get_cons, if_pos hv, get_cons, if_pos hv]
      · rw [update_cons, if_neg hw, get_cons, if_neg hv, get_cons, if_neg hv]
        exact get_update_other L u n v h

theorem get_not_mem_zero : ∀ (L : Ledger) (u : Int),
    u ∉ L.map Prod.fst → get_user_points L u = 0
  | [], _, _ => rfl
  | (v, p) :: L, u, h => by
    simp only [List.map_cons, List.mem_cons, not_or] at h
    have hvu : ¬v = u := fun hh => h.1 hh.symm
    rw [get_cons, if_neg hvu]
    exact get_not_mem_zero L u h.2

theorem mem_keys_update : ∀ (L : Ledger) (u n v : Int),
    v ∈ (update_user_points L u n).map Prod.fst →
      v ∈ L.map Prod.fst ∨ v = u
  | [], u, n, v, h => by
    simp only [update_user_points, List.map_cons, List.map_nil,
      List.mem_cons, List.not_mem_nil, or_false] at h
    exact Or.inr h
  | (w, p) :: L, u, n, v, h => by
    by_cases hw : w = u
    · rw [update_cons, if_pos hw] at h
      simp only [List.map_cons, List.mem_cons] at h ⊢
      rcases h with h | h
      · exact Or.inr (h.trans hw)
      · exact Or.inl (Or.inr h)
    · rw [update_cons, if_neg hw] at h
      simp only [List.map_cons, List.mem_cons] at h ⊢
      rcases h with h | h
      · exact Or.inl (Or.inl h)
      · rcases mem_keys_update L u n v h with h2 | h2
        · exact Or.inl (Or.inr h2)
        · exact Or.inr h2

theorem update_keys_nodup : ∀ (L : Ledger) (u n : Int),
    (L.map Prod.fst).Nodup → ((update_user_points L u n).map Prod.fst).Nodup
  | [], u, n, _ => by simp [update_user_points]
  | (w, p) :: L, u, n, h => by
    simp only [List.map_cons, List.nodup_cons] at h
    by_cases hw : w = u
    · rw [update_cons, if_pos hw]
      simp only [List.map_cons, List.nodup_cons]
      exact h
    · rw [update_cons, if_neg hw]
      simp only [List.map_cons, List.nodup_cons]
      refine ⟨fun hmem => ?_, update_keys_nodup L u n h.2⟩
      rcases mem_keys_update L u n w hmem with h2 | h2
      · exact h.1 h2
      · exact hw h2

/-! Helper lemmas about the expiration sweep. -/

theorem partitionExpired_fst (now : Int) : ∀ rows : List Campaign,
    (partitionExpired now rows).1
      = (rows.filter (fun c => c.expiration ≤ now)).map
          (fun c => (c.message_id, c.channel_id))
  | [] => rfl
  | c :: rows => by
    by_cases h : c.expiration ≤ now
    · simp [partitionExpired, h, partitionExpired_fst now rows]
    · simp [partitionExpired, h, partitionExpired_fst now rows]

theorem partitionExpired_snd (now : Int) : ∀ rows : List Campaign,
    (partitionExpired now rows).2 = rows.filter (fun c => now < c.expiration)
  | [] => rfl
  | c :: rows => by
    by_cases h : c.expiration ≤ now
    · simp [partitionExpired, h, not_lt.mpr h, partitionExpired_snd now rows]
    · simp [partitionExpired, h, not_le.mp h, partitionExpired_snd now rows]

/-! Helper lemmas about dict operations and the two schedule parsers. -/

theorem dictInsert_cons {α β : Type} [DecidableEq α] (kv : α × β)
    (d : List (α × β)) (k : α) (v : β) :
    dictInsert (kv :: d) k v
      = if kv.1 = k then (k, v) :: d else kv :: dictInsert d k v := rfl

theorem dictLookup_cons {α β : Type} [DecidableEq α] (kv : α × β)
    (d : List (α × β)) (k : α) :
    dictLookup (kv :: d) k
      = if kv.1 = k then some kv.2 else dictLookup d k := rfl

theorem createwptParseAux_malformed :
    ∀ (pairs : List (List Char)) (acc : List (List Char × Int)) (pair : List Char),
    pair ∈ pairs → malformedPair pair = true → createwptParseAux pairs acc = none := by
  intro pairs
  induction pairs with
  | nil =>
    intro acc pair h _
    exact absurd h (List.not_mem_nil pair)
  | cons q rest ih =>
    intro acc pair hmem hbad
    simp only [createwptParseAux]
    rcases List.mem_cons.mp hmem with heq | hmem2
    · subst heq
      cases hsp : pySplit pair ':' with
      | nil => rfl
      | cons e tail =>
        cases tail with
        | nil => rfl
        | cons p tail2 =>
          cases tail2 with
          | nil =>
            simp only [malformedPair, hsp] at hbad
            dsimp only
            cases hp : pyInt p with
            | none => rfl
            | some n => rw [hp] at hbad; simp at hbad
          | cons x xs => rfl
    · cases hsp : pySplit q ':' with
      | nil => rfl
      | cons e tail =>
        cases tail with
        | nil => rfl
        | cons p tail2 =>
          cases tail2 with
          | nil =>
            dsimp only
            cases hp : pyInt p with
            | none => rfl
            | some n => exact ih (dictInsert acc (pyStrip e) n) pair hmem2 hbad
          | cons x xs => rfl

theorem handlerDecodeAux_missing_colon :
    ∀ (pairs : List (List Char)) (acc : List (List Char × List Char)) (pair : List Char),
    pair ∈ pairs → pySplit pair ':' = [pair] → handlerDecodeAux pairs acc = none := by
  intro pairs
  induction pairs with
  | nil =>
    intro acc pair h _
    exact absurd h (List.not_mem_nil pair)
  | cons q rest ih =>
    intro acc pair hmem hbad
    simp only [handlerDecodeAux]
    rcases List.mem_cons.mp hmem with heq | hmem2
    · subst heq
      rw [hbad]
    · cases hsp : pySplit q ':' with
      | nil => rfl
      | cons e tail =>
        cases tail with
        | nil => rfl
        | cons p tail2 =>
          cases tail2 with
          | nil => exact ih (dictInsert acc e p) pair hmem2 hbad
          | cons x xs => rfl

theorem dictInsert_rel :
    ∀ {d : List (List Char × Int)} {d' : List (List Char × List Char)},
    List.Forall₂ schedRel d d' →
    ∀ (k : List Char) (n : Int) (p : List Char), pyInt p = some n →
    List.Forall₂ schedRel (dictInsert d k n) (dictInsert d' k p) := by
  intro d d' h
  induction h with
  | nil =>
    intro k n p hp
    exact List.Forall₂.cons ⟨rfl, hp⟩ List.Forall₂.nil
  | @cons a b l l' hab htail ih =>
    intro k n p hp
    by_cases hk : a.1 = k
    · have hbk : b.1 = k := hab.1.symm.trans hk
      rw [dictInsert_cons, if_pos hk, dictInsert_cons, if_pos hbk]
      exact List.Forall₂.cons ⟨rfl, hp⟩ htail
    · have hbk : ¬b.1 = k := fun hh => hk (hab.1.trans hh)
      rw [dictInsert_cons, if_neg hk, dictInsert_cons, if_neg hbk]
      exact List.Forall₂.cons hab (ih k n p hp)

theorem dictLookup_rel :
    ∀ {d : List (List Char × Int)} {d' : List (List Char × List Char)},
    List.Forall₂ schedRel d d' →
    ∀ (e : List Char) (n : Int), dictLookup d e = some n →
    ∃ p, dictLookup d' e = some p ∧ pyInt p = some n := by
  intro d d' h
  induction h with
  | nil =>
    intro e n h2
    simp [dictLookup] at h2
  | @cons a b l l' hab htail ih =>
    intro e n h2
    by_cases he : a.1 = e
    · rw [dictLookup_cons, if_pos he] at h2
      have hbe : b.1 = e := hab.1.symm.trans he
      refine ⟨b.2, ?_, ?_⟩
      · rw [dictLookup_cons, if_pos hbe]
      · exact hab.2.trans h2
    · have hbe : ¬b.1 = e := fun hh => he (hab.1.trans hh)
      rw [dictLookup_cons, if_neg he] at h2
      obtain ⟨p, hp1, hp2⟩ := ih e n h2
      refine ⟨p, ?_, hp2⟩
      rw [dictLookup_cons, if_neg hbe]
      exact hp1

theorem parse_decode_rel :
    ∀ (pairs : List (List Char)) (acc : List (List Char × Int))
      (acc' : List (List Char × List Char)),
    List.Forall₂ schedRel acc acc' →
    (∀ pair ∈ pairs, stripOK pair = true) →
    ∀ d, createwptParseAux pairs acc = some d →
    ∃ d', handlerDecodeAux pairs acc' = some d' ∧ List.Forall₂ schedRel d d' := by
  intro pairs
  induction pairs with
  | nil =>
    intro acc acc' hrel _ d hd
    simp only [createwptParseAux, Option.some.injEq] at hd
    subst hd
    exact ⟨acc', rfl, hrel⟩
  | cons q rest ih =>
    intro acc acc' hrel hstrip d hd
    simp only [createwptParseAux] at hd
    simp only [handlerDecodeAux]
    cases hsp : pySplit q ':' with
    | nil => rw [hsp] at hd; exact Option.noConfusion hd
    | cons e tail =>
      cases tail with
      | nil => rw [hsp] at hd; exact Option.noConfusion hd
      | cons p tail2 =>
        cases tail2 with
        | nil =>
          rw [hsp] at hd
          dsimp only at hd
          dsimp only
          cases hp : pyInt p with
          | none => rw [hp] at hd; exact Option.noConfusion hd
          | some n =>
            rw [hp] at hd
            have hq : stripOK q = true := hstrip q (List.mem_cons_self q rest)
            simp only [stripOK, hsp] at hq
            have he : pyStrip e = e := eq_of_beq hq
            rw [he] at hd
            exact ih (dictInsert acc e n) (dictInsert acc' e p)
              (dictInsert_rel hrel e n p hp)
              (fun pr hpr => hstrip pr (List.mem_cons_of_mem q hpr)) d hd
        | cons x xs => rw [hsp] at hd; exact Option.noConfusion hd

/-! Claim theorems and witnesses. -/

/-- C1: a sweep at time now lists as expired exactly the records with
expiration at or before now (each projected to its message and channel
ids, in registry order), and rewrites the registry to exactly the records
with expiration strictly after now; so a record with expiration T is in
the expired list iff now is at or past T, and is absent from the registry
afterwards. -/
theorem check_expirations_partitions_by_expiration (now : Int)
    (rows : List Campaign) (deleteOk : Int → Int → Bool) :
    (check_expirations now rows deleteOk).expired_messages
        = (rows.filter (fun c => c.expiration ≤ now)).map
            (fun c => (c.message_id, c.channel_id))
      ∧ (check_expirations now rows deleteOk).registry
        = rows.filter (fun c => now < c.expiration) :=
  ⟨partitionExpired_fst now rows, partitionExpired_snd now rows⟩

/-- C2: after any sequence of update_user_points calls, get_user_points
for a user returns the value of the most recent call for that user, and
falls back to the prior balance when the sequence holds no call for that
user; calls for other users never affect the result. -/
theorem get_points_returns_most_recent_set :
    ∀ (cs : List (Int × Int)) (L : Ledger) (u : Int),
    get_user_points (applyCalls L cs) u
      = (lastCallValue u cs).getD (get_user_points L u)
  | [], _, _ => rfl
  | (v, m) :: cs, L, u => by
    have hstep : applyCalls L ((v, m) :: cs)
        = applyCalls (update_user_points L v m) cs := rfl
    rw [hstep, get_points_returns_most_recent_set cs (update_user_points L v m) u]
    cases h : lastCallValue u cs with
    | some k => simp [lastCallValue, h]
    | none =>
      by_cases hv : v = u
      · subst hv
        simp [lastCallValue, h, get_update_self]
      · have huv : u ≠ v := fun hh => hv hh.symm
        simp [lastCallValue, h, hv, get_update_other L v m u huv]

/-- C3: for every registry, ledger, non-bot user and emoji, a
reaction-added event followed by a reaction-removed event for the same
user, message and emoji leaves the balance of that user exactly where it
started. -/
theorem reaction_add_then_remove_net_zero (registry : List Campaign) (L : Ledger)
    (uid mid : Int) (emoji : List Char) :
    get_user_points
        (on_reaction_remove registry
          (on_reaction_add registry L false uid mid emoji) false uid mid emoji) uid
      = get_user_points L uid := by
  unfold on_reaction_add on_reaction_remove
  simp only [Bool.false_eq_true, if_false]
  cases h1 : find_by_message registry mid with
  | none => rfl
  | some row =>
    dsimp only
    cases h2 : handler_decode row.emoji_points with
    | none => rfl
    | some d =>
      dsimp only
      cases h3 : dictLookup d emoji with
      | none => rfl
      | some p =>
        dsimp only
        cases h4 : pyInt p with
        | none => rfl
        | some n =>
          dsimp only
          rw [get_update_self, get_update_self]
          omega

/-- C5: in a single sweep pass every expired record is pruned from the
registry and its message deletion is attempted, whatever the deletion
outcomes are (deleteOk is arbitrary, including always failing), and the
rewritten registry does not depend on the deletion outcomes at all. -/
theorem sweep_prunes_regardless_of_delete_outcome (now : Int)
    (rows : List Campaign) (deleteOk : Int → Int → Bool) (c : Campaign)
    (hc : c ∈ rows) (he : c.expiration ≤ now) :
    ((c.message_id, c.channel_id)
        ∈ (check_expirations now rows deleteOk).expired_messages
      ∧ c ∉ (check_expirations now rows deleteOk).registry)
      ∧ ∀ g : Int → Int → Bool,
          (check_expirations now rows deleteOk).registry
            = (check_expirations now rows g).registry := by
  constructor
  · constructor
    · have hexp : (check_expirations now rows deleteOk).expired_messages
          = (rows.filter (fun c => c.expiration ≤ now)).map
              (fun c => (c.message_id, c.channel_id)) :=
        partitionExpired_fst now rows
      rw [hexp]
      exact List.mem_map.mpr ⟨c, List.mem_filter.mpr ⟨hc, by simpa using he⟩, rfl⟩
    · have hreg : (check_expirations now rows deleteOk).registry
          = rows.filter (fun c => now < c.expiration) :=
        partitionExpired_snd now rows
      rw [hreg]
      intro hmem
      have hlt : now < c.expiration := by
        simpa using (List.mem_filter.mp hmem).2
      exact absurd he (not_le.mpr hlt)
  · intro g
    rfl

/-- Concrete instance for C5: a record one hour past expiration is listed
and pruned even when every message deletion fails, and an all-success
deletion oracle yields the same rewritten registry. -/
theorem sweep_prunes_regardless_of_delete_outcome_witness :
    (((1 : Int), (2 : Int))
        ∈ (check_expirations 5 [⟨1, 2, 3, "a:1".data⟩]
            (fun _ _ => false)).expired_messages
      ∧ (⟨1, 2, 3, "a:1".data⟩ : Campaign)
          ∉ (check_expirations 5 [⟨1, 2, 3, "a:1".data⟩]
              (fun _ _ => false)).registry)
      ∧ (check_expirations 5 [⟨1, 2, 3, "a:1".data⟩] (fun _ _ => false)).registry
          = (check_expirations 5 [⟨1, 2, 3, "a:1".data⟩] (fun _ _ => true)).registry :=
  ⟨(sweep_prunes_regardless_of_delete_outcome 5 [⟨1, 2, 3, "a:1".data⟩]
      (fun _ _ => false) ⟨1, 2, 3, "a:1".data⟩ (by decide) (by decide)).1,
   (sweep_prunes_regardless_of_delete_outcome 5 [⟨1, 2, 3, "a:1".data⟩]
      (fun _ _ => false) ⟨1, 2, 3, "a:1".data⟩ (by decide) (by decide)).2
      (fun _ _ => true)⟩

/-- C7: reading the points of a user with no row yields 0, and when the
points file is absent the read recreates the file with headers only and
yields 0 for every user. -/
theorem get_points_unwritten_user_zero :
    (∀ uid : Int, get_user_points_file none uid = (some [], 0))
      ∧ ∀ (L : Ledger) (uid : Int),
          uid ∉ L.map Prod.fst → get_user_points L uid = 0 :=
  ⟨fun _ => rfl, fun L uid h => get_not_mem_zero L uid h⟩

/-- Concrete instance for C7: a file-absent read for user 5 heals the
store and returns 0, and user 2 with no row in a nonempty store reads 0. -/
theorem get_points_unwritten_user_zero_witness :
    get_user_points_file none 5 = (some [], 0)
      ∧ get_user_points [(1, 3)] 2 = 0 :=
  ⟨get_points_unwritten_user_zero.1 5,
   get_points_unwritten_user_zero.2 [(1, 3)] 2 (by decide)⟩

/-- C10: update_user_points for user u leaves the balance read for every
other user unchanged, and preserves the at-most-one-row-per-user shape of
the store. -/
theorem update_points_frame (L : Ledger) (u n v : Int) :
    (v ≠ u →
        get_user_points (update_user_points L u n) v = get_user_points L v)
      ∧ ((L.map Prod.fst).Nodup →
          ((update_user_points L u n).map Prod.fst).Nodup) :=
  ⟨get_update_other L u n v, update_keys_nodup L u n⟩

/-- Concrete instance for C10: setting user 1 to 9 leaves the balance of
user 3 alone and keeps the row keys duplicate-free. -/
theorem update_points_frame_witness :
    get_user_points (update_user_points [(1, 2), (3, 4)] 1 9) 3
        = get_user_points [(1, 2), (3, 4)] 3
      ∧ ((update_user_points [(1, 2), (3, 4)] 1 9).map Prod.fst).Nodup :=
  ⟨(update_points_frame [(1, 2), (3, 4)] 1 9 3).1 (by decide),
   (update_points_frame [(1, 2), (3, 4)] 1 9 3).2 (by decide)⟩

/-- C4: createwpt parsing maps the thumbs-up and heart example to the
expected schedule; any input with a comma-separated pair that lacks a
colon or whose points part does not convert with int makes the parse
fail; and a failed parse makes createwpt report an error with the
registry unchanged, so nothing is posted and no record is written. -/
theorem createwpt_parse_validates :
    createwpt_parse ("👍:5,❤️:10".data) = some [("👍".data, 5), ("❤️".data, 10)]
      ∧ (∀ (s pair : List Char), pair ∈ pySplit s ',' → malformedPair pair = true →
          createwpt_parse s = none)
      ∧ ∀ (registry : List Campaign) (mid cid expiry : Int) (s : List Char),
          createwpt_parse s = none →
          createwpt registry mid cid expiry s = (registry, CreateResult.error) := by
  refine ⟨by decide, ?_, ?_⟩
  · intro s pair hmem hbad
    exact createwptParseAux_malformed (pySplit s ',') [] pair hmem hbad
  · intro registry mid cid expiry s h
    simp [createwpt, h]

/-- Concrete instance for C4: the thumbs-up-colon-five input fails to
parse and createwpt on it reports an error writing no record. -/
theorem createwpt_parse_validates_witness :
    createwpt_parse ("👍:five".data) = none
      ∧ createwpt [] 1 2 3 ("👍:five".data) = ([], CreateResult.error) := by
  have h : createwpt_parse ("👍:five".data) = none :=
    createwpt_parse_validates.2.1 ("👍:five".data) ("👍:five".data)
      (by decide) (by decide)
  exact ⟨h, createwpt_parse_validates.2.2 [] 1 2 3 ("👍:five".data) h⟩

/-- Counterexample to C6 as stated: a stored schedule holding the
malformed entry b-colon-five (a non-integer points part) does not abort
the whole read; reacting with the well-formed emoji a still credits 5
points from that record. -/
theorem reaction_credit_despite_malformed_entry :
    malformedPair ("b:five".data) = true
      ∧ "b:five".data ∈ pySplit ("a:5,b:five".data) ','
      ∧ on_reaction_add [⟨1, 1, 100, "a:5,b:five".data⟩] [] false 7 1 ("a".data)
          = [(7, 5)] :=
  ⟨by decide, by decide, by decide⟩

/-- C6 amended: an entry lacking a colon anywhere in the stored schedule
makes the whole dict decode fail, and both reaction handlers then leave
the ledger untouched; a non-integer points part only blocks crediting
when the reacted emoji is that entry itself, in which case the int
conversion fails and the ledger is likewise untouched. -/
theorem handler_malformed_abort_semantics :
    (∀ (s pair : List Char), pair ∈ pySplit s ',' → pySplit pair ':' = [pair] →
        handler_decode s = none)
      ∧ (∀ (registry : List Campaign) (L : Ledger) (isBot : Bool)
          (uid mid : Int) (emoji : List Char) (row : Campaign),
          find_by_message registry mid = some row →
          handler_decode row.emoji_points = none →
          on_reaction_add registry L isBot uid mid emoji = L
            ∧ on_reaction_remove registry L isBot uid mid emoji = L)
      ∧ ∀ (registry : List Campaign) (L : Ledger) (isBot : Bool)
          (uid mid : Int) (emoji : List Char) (row : Campaign)
          (d : List (List Char × List Char)) (p : List Char),
          find_by_message registry mid = some row →
          handler_decode row.emoji_points = some d →
          dictLookup d emoji = some p → pyInt p = none →
          on_reaction_add registry L isBot uid mid emoji = L
            ∧ on_reaction_remove registry L isBot uid mid emoji = L := by
  refine ⟨?_, ?_, ?_⟩
  · intro s pair hmem hbad
    exact handlerDecodeAux_missing_colon (pySplit s ',') [] pair hmem hbad
  · intro registry L isBot uid mid emoji row h1 h2
    cases isBot with
    | true => exact ⟨rfl, rfl⟩
    | false =>
      constructor
      · simp [on_reaction_add, h1, h2]
      · simp [on_reaction_remove, h1, h2]
  · intro registry L isBot uid mid emoji row d p h1 h2 h3 h4
    cases isBot with
    | true => exact ⟨rfl, rfl⟩
    | false =>
      constructor
      · simp [on_reaction_add, h1, h2, h3, h4]
      · simp [on_reaction_remove, h1, h2, h3, h4]

/-- Concrete instances for amended C6: a schedule with a colon-free entry
decodes to a failure and awards nothing, and reacting with an emoji whose
stored value is the non-integer x awards nothing. -/
theorem handler_malformed_abort_semantics_witness :
    handler_decode ("a5,b:3".data) = none
      ∧ on_reaction_add [⟨1, 1, 100, "a5,b:3".data⟩] [] false 7 1 ("b".data) = []
      ∧ on_reaction_add [⟨2, 1, 100, "a:5,b:x".data⟩] [] false 7 2 ("b".data) = [] := by
  have hd : handler_decode ("a5,b:3".data) = none :=
    handler_malformed_abort_semantics.1 ("a5,b:3".data) ("a5".data)
      (by decide) (by decide)
  refine ⟨hd, ?_, ?_⟩
  · exact (handler_malformed_abort_semantics.2.1 [⟨1, 1, 100, "a5,b:3".data⟩] [] false 7 1
      ("b".data) ⟨1, 1, 100, "a5,b:3".data⟩ (by decide) hd).1
  · exact (handler_malformed_abort_semantics.2.2 [⟨2, 1, 100, "a:5,b:x".data⟩] [] false 7 2
      ("b".data) ⟨2, 1, 100, "a:5,b:x".data⟩ [("a".data, "5".data), ("b".data, "x".data)]
      ("x".data) (by decide) (by decide) (by decide) (by decide)).1

/-- Counterexample to C8 as stated: with the accepted input space-a-colon-5
createwpt computes the stripped key a worth 5 and attaches the reaction a,
but the handler dict keeps the unstripped key, so the attached emoji is
not recognized and reacting with it awards nothing. -/
theorem schedule_roundtrip_whitespace_mismatch :
    createwpt_parse (" a:5".data) = some [("a".data, 5)]
      ∧ handler_decode (" a:5".data) = some [(" a".data, "5".data)]
      ∧ dictLookup [(" a".data, "5".data)] ("a".data) = none
      ∧ on_reaction_add [⟨1, 2, 3, " a:5".data⟩] [] false 7 1 ("a".data) = [] :=
  ⟨by decide, by decide, by decide, by decide⟩

/-- C8 amended: for every accepted emoji_points string whose emoji tokens
carry no surrounding whitespace, the handler-decoded dict has the same
keys in the same order as the dict createwpt computed, each stored value
converts with int to the creation-time point value, and every emoji
createwpt attached resolves through the handler dict to its creation-time
value. -/
theorem schedule_roundtrip_stripped_agree :
    ∀ (s : List Char) (d : List (List Char × Int)),
    createwpt_parse s = some d →
    (∀ pair ∈ pySplit s ',', stripOK pair = true) →
    ∃ d', handler_decode s = some d'
      ∧ List.Forall₂ schedRel d d'
      ∧ ∀ (e : List Char) (n : Int), dictLookup d e = some n →
          ∃ p, dictLookup d' e = some p ∧ pyInt p = some n := by
  intro s d hd hstrip
  obtain ⟨d', h1, h2⟩ :=
    parse_decode_rel (pySplit s ',') [] [] List.Forall₂.nil hstrip d hd
  exact ⟨d', h1, h2, fun e n hn => dictLookup_rel h2 e n hn⟩

/-- Concrete instance for amended C8: the two-entry schedule a worth 5 and
b worth 7 decodes on the handler side to a dict agreeing entrywise. -/
theorem schedule_roundtrip_stripped_agree_witness :
    ∃ d', handler_decode ("a:5,b:7".data) = some d'
      ∧ List.Forall₂ schedRel [("a".data, 5), ("b".data, 7)] d'
      ∧ ∀ (e : List Char) (n : Int),
          dictLookup [("a".data, 5), ("b".data, 7)] e = some n →
          ∃ p, dictLookup d' e = some p ∧ pyInt p = some n :=
  schedule_roundtrip_stripped_agree ("a:5,b:7".data) [("a".data, 5), ("b".data, 7)]
    (by decide) (by decide)

/-- Counterexample to C9 as stated: the empty string stored under
required_role is not a valid integer, yet the gate admits an invoker
instead of denying everyone, because the falsy-value branch runs first. -/
theorem role_gate_empty_value_allows :
    pyInt ("".data) = none
      ∧ has_required_role [("required_role", "")] [] = true :=
  ⟨by decide, by decide⟩

/-- C9 amended: with the required_role key absent the gate admits every
invoker, with the empty string stored it likewise admits every invoker,
and with a nonempty stored value that does not convert with int it denies
every invoker. -/
theorem role_gate_semantics :
    (∀ (settings : Settings) (roles : List Int),
        get_setting settings "required_role" = none →
        has_required_role settings roles = true)
      ∧ (∀ (settings : Settings) (roles : List Int),
          get_setting settings "required_role" = some "" →
          has_required_role settings roles = true)
      ∧ ∀ (settings : Settings) (roles : List Int) (v : String),
          get_setting settings "required_role" = some v → v ≠ "" →
          pyInt v.data = none → has_required_role settings roles = false := by
  refine ⟨?_, ?_, ?_⟩
  · intro settings roles h
    simp [has_required_role, h]
  · intro settings roles h
    simp [has_required_role, h]
  · intro settings roles v h hne hv
    simp [has_required_role, h, hne, hv]

/-- Concrete instances for amended C9: an empty settings store admits an
invoker with role 9, the empty stored value admits them too, and the
stored value abc denies them. -/
theorem role_gate_semantics_witness :
    has_required_role [] [9] = true
      ∧ has_required_role [("required_role", "")] [9] = true
      ∧ has_required_role [("required_role", "abc")] [9] = false :=
  ⟨role_gate_semantics.1 [] [9] (by decide),
   role_gate_semantics.2.1 [("required_role", "")] [9] (by decide),
   role_gate_semantics.2.2 [("required_role", "abc")] [9] "abc" (by decide)
     (by decide) (by decide)⟩

end ReactionBot
